import Mathlib

/-!
Verification of the MedicManager reminder/stock engine.

Shallow embedding of `src/app/med_manager.py` and `src/app/utils.py`:

* `get_stock_status` (med_manager.py lines 116-149): stock forecast.
  Python floats are modelled as rationals; the guarded division and the
  `except`-fallback are modelled via `Except`.
* `check_and_notify_reminders`: the function is defined twice in the source
  (lines 151-198 and lines 462-506).  The second definition shadows the first
  at import time, so the effective behaviour is the second one; we embed both
  (`processTime` for the effective per-time-string body, `processTimeV1` for
  the shadowed one, which additionally appends a history entry).
* `set_alarm` (utils.py lines 7-24): only the delay computation matters and is
  embedded as `set_alarm_delay`.

State that the Python code keeps in files (reminder log, history) is passed
explicitly; the calls to `plyer.notification.notify` are modelled by an oracle
`notifyOk : String → Bool` telling, per occurrence key, whether the call
returns normally (`true`) or raises (`false`).  Successful notifications are
collected in the `emitted` trace, `st.error` calls in the `errors` trace.
-/

/-- Global settings relevant to the engine (`DEFAULT_SETTINGS` /
`load_settings` in med_manager.py); `low_stock_threshold` is the value of
`settings.get("low_stock_threshold", ...)`, `reminder_advance_minutes` the
value of `load_settings()["reminder_advance_minutes"]`. -/
structure Settings where
  notification_enabled : Bool
  low_stock_threshold : ℚ
  reminder_advance_minutes : Nat
deriving Repr, DecidableEq

/-- The engine-relevant part of `DEFAULT_SETTINGS` (med_manager.py lines
20-33): notifications enabled, low-stock threshold 10, advance window 5. -/
def DEFAULT_SETTINGS : Settings := ⟨true, 10, 5⟩

/-- Result of `get_stock_status`: the `days_remaining`, `monthly_cost` and
`status` fields of the returned dict.  The human-readable `message` field is
presentation-only and not modelled. -/
structure StockStatus where
  days_remaining : ℚ
  monthly_cost : ℚ
  status : String
deriving Repr, DecidableEq

/-- Python division, raising `ZeroDivisionError` on a zero divisor. -/
def checkedDiv (a b : ℚ) : Except Unit ℚ :=
  if b = 0 then Except.error () else Except.ok (a / b)

/-- Body of the `try` block of `get_stock_status` (med_manager.py lines
118-142).  `days_remaining = stock / times_per_day if times_per_day > 0 else 0`;
`monthly_cost = cost * times_per_day * 30`; default status `"✅"`, overridden
to `"❌"` when `days_remaining <= threshold` and else to `"⚠️"` when
`days_remaining <= 30`.  An `Except.error` value corresponds to an exception
escaping the `try` body. -/
def get_stock_status_body (settings : Settings) (stock times_per_day cost : ℚ) :
    Except Unit StockStatus :=
  match (if 0 < times_per_day then checkedDiv stock times_per_day else Except.ok 0) with
  | Except.error e => Except.error e
  | Except.ok days_remaining =>
    let monthly_cost := cost * times_per_day * 30
    let threshold := settings.low_stock_threshold
    if days_remaining ≤ threshold then
      Except.ok ⟨days_remaining, monthly_cost, "❌"⟩
    else if days_remaining ≤ 30 then
      Except.ok ⟨days_remaining, monthly_cost, "⚠️"⟩
    else
      Except.ok ⟨days_remaining, monthly_cost, "✅"⟩

/-- `get_stock_status` (med_manager.py lines 116-149): runs the `try` body;
the `except (ValueError, TypeError, ZeroDivisionError)` clause returns the
fallback `{days_remaining: 0, monthly_cost: 0, status: "❌"}`. -/
def get_stock_status (settings : Settings) (stock times_per_day cost : ℚ) :
    StockStatus :=
  match get_stock_status_body settings stock times_per_day cost with
  | Except.ok r => r
  | Except.error _ => ⟨0, 0, "❌"⟩

/-- Threshold selection as worded by the spec's `lowStockThresholdOverride`
field: an optional per-medication override falling back to the global
setting.  Stated from the spec for comparison with the source, which has no
such field. -/
def lowStockThresholdOverrideSpec (globalThreshold : ℚ) (override : Option ℚ) : ℚ :=
  override.getD globalThreshold

/-- Splitting a character list at each `':'`, accumulating the current field
in reverse; mirrors the field structure `strptime` sees in an `"HH:MM"`
string. -/
def splitColonAux : List Char → List Char → List (List Char)
  | [], cur => [cur.reverse]
  | c :: rest, cur =>
    if c = ':' then cur.reverse :: splitColonAux rest []
    else splitColonAux rest (c :: cur)

/-- All maximal `':'`-separated fields of a character list. -/
def splitOnColon (cs : List Char) : List (List Char) :=
  splitColonAux cs []

/-- Python's `str.split(", ")`: split at each non-overlapping occurrence of
the two-character separator `", "`, scanning left to right. -/
def splitCommaSpaceAux : List Char → List Char → List (List Char)
  | ',' :: ' ' :: rest, cur => cur.reverse :: splitCommaSpaceAux rest []
  | c :: rest, cur => splitCommaSpaceAux rest (c :: cur)
  | [], cur => [cur.reverse]

/-- `raw.split(", ")` on the reminder-times CSV cell. -/
def splitCommaSpace (cs : List Char) : List (List Char) :=
  splitCommaSpaceAux cs []

/-- Decimal value of a digit string. -/
def digitsToNat (cs : List Char) : Nat :=
  cs.foldl (fun n c => n * 10 + (c.toNat - 48)) 0

/-- A field acceptable to `strptime`'s `%H`/`%M`: one or two decimal digits. -/
def validTimeField (cs : List Char) : Bool :=
  decide (1 ≤ cs.length) && decide (cs.length ≤ 2) && cs.all Char.isDigit

/-- `datetime.strptime(f"{date} {time_str}", "%Y-%m-%d %H:%M")` restricted to
the time-of-day part (the date part is always well-formed in the source):
`some (hour, minute)` when `time_str` is `%H:%M` with hour ≤ 23 and
minute ≤ 59, `none` when `strptime` raises `ValueError`. -/
def parseTime (cs : List Char) : Option (Nat × Nat) :=
  match splitOnColon cs with
  | [hs, ms] =>
    if validTimeField hs && validTimeField ms then
      let h := digitsToNat hs
      let m := digitsToNat ms
      if h ≤ 23 ∧ m ≤ 59 then some (h, m) else none
    else none
  | _ => none

/-- The columns of a medication row that `check_and_notify_reminders` and the
dashboard touch: name (`பெயர்`), dosage (`அளவு`), the raw reminder-times cell
(`நினைவூட்டல் நேரம்`, `none` for a NaN cell), and the active date range
(`தொடக்க தேதி` / `முடிவு தேதி`). -/
structure Medication where
  name : String
  dosage : String
  reminderTimesRaw : Option String
  startDate : String
  endDate : String
deriving Repr, DecidableEq

/-- A row of the history CSV (`தேதி`, `மருந்து`, `செயல்`, `விவரங்கள்`). -/
structure HistoryEntry where
  date : String
  med : String
  action : String
  details : String
deriving Repr, DecidableEq

/-- The observable state threaded through one or more evaluation passes:
`log` is the persisted reminder log (`reminder_log.json`, keys only — the
stored value never influences control flow), `emitted` the trace of
successful `notification.notify` calls (by occurrence key), `history` the
history CSV, `errors` the trace of `st.error` calls (by medication name). -/
structure EvalState where
  log : List String
  emitted : List String
  history : List HistoryEntry
  errors : List String
deriving Repr, DecidableEq

/-- The occurrence key `f"{med['பெயர்']}_{current_time.date()}_{time_str}"`. -/
def mkKey (name day : String) (t : List Char) : String :=
  name ++ "_" ++ day ++ "_" ++ String.mk t

/-- Absolute difference of two naturals (the engine compares times in whole
seconds, both on the same calendar day and timezone). -/
def natAbsDiff (a b : Nat) : Nat :=
  if a ≤ b then b - a else a - b

/-- Body of the inner `for time_str in reminder_times` loop of the effective
(second, shadowing) `check_and_notify_reminders` (med_manager.py lines
475-506): parse the time (a failure is caught and reported via `st.error`);
if `time_diff <= reminder_advance_minutes` and the key is not in the log,
call `notification.notify` (a raise is caught and reported via `st.error`,
leaving the log untouched), then record the key and persist the log.  The
`winsound` beep is stateless (its own exceptions are swallowed) and not
modelled.  `nowSec` is the current time as seconds since today's midnight. -/
def processTime (w : Nat) (day : String) (nowSec : Nat) (notifyOk : String → Bool)
    (med : Medication) (t : List Char) (s : EvalState) : EvalState :=
  match parseTime t with
  | none => { s with errors := s.errors ++ [med.name] }
  | some (h, m) =>
    let key := mkKey med.name day t
    let diffSec := natAbsDiff nowSec ((h * 60 + m) * 60)
    if diffSec ≤ w * 60 ∧ ¬ key ∈ s.log then
      if notifyOk key then
        { s with emitted := s.emitted ++ [key], log := s.log ++ [key] }
      else
        { s with errors := s.errors ++ [med.name] }
    else s

/-- Body of the inner loop of the first, shadowed `check_and_notify_reminders`
(med_manager.py lines 164-198): same control flow as `processTime`, but after
recording the key it also appends a `நினைவூட்டல்` (Reminded) history entry
with details `f"நேரம்: {time_str}"`; `nowStr` is the formatted current
timestamp written into the entry. -/
def processTimeV1 (w : Nat) (day : String) (nowSec : Nat) (nowStr : String)
    (notifyOk : String → Bool) (med : Medication) (t : List Char) (s : EvalState) :
    EvalState :=
  match parseTime t with
  | none => { s with errors := s.errors ++ [med.name] }
  | some (h, m) =>
    let key := mkKey med.name day t
    let diffSec := natAbsDiff nowSec ((h * 60 + m) * 60)
    if diffSec ≤ w * 60 ∧ ¬ key ∈ s.log then
      if notifyOk key then
        { s with emitted := s.emitted ++ [key], log := s.log ++ [key],
                 history := s.history ++
                   [⟨nowStr, med.name, "நினைவூட்டல்", "நேரம்: " ++ String.mk t⟩] }
      else
        { s with errors := s.errors ++ [med.name] }
    else s

/-- Folding `processTime` over a list of time strings (the inner loop). -/
def processTimes (w : Nat) (day : String) (nowSec : Nat) (notifyOk : String → Bool)
    (med : Medication) (ts : List (List Char)) (s : EvalState) : EvalState :=
  ts.foldl (fun s t => processTime w day nowSec notifyOk med t s) s

/-- The reminder times the effective definition iterates over for one
medication: skip when the cell is NaN (`pd.isna`) or falsy (empty string),
else `split(", ")`. -/
def medTimes (m : Medication) : List (List Char) :=
  match m.reminderTimesRaw with
  | none => []
  | some raw => if raw = "" then [] else splitCommaSpace raw.data

/-- One iteration of the outer `for _, med in med_data.iterrows()` loop of the
effective `check_and_notify_reminders`. -/
def processMed (w : Nat) (day : String) (nowSec : Nat) (notifyOk : String → Bool)
    (s : EvalState) (med : Medication) : EvalState :=
  processTimes w day nowSec notifyOk med (medTimes med) s

/-- The effective `check_and_notify_reminders` (med_manager.py lines 462-506):
return immediately when notifications are disabled, else iterate over all
medications; `day` is `current_time.date()` and `nowSec` the time of day of
`current_time` in seconds. -/
def check_and_notify_reminders (settings : Settings) (day : String) (nowSec : Nat)
    (notifyOk : String → Bool) (meds : List Medication) (s : EvalState) : EvalState :=
  if settings.notification_enabled then
    meds.foldl (processMed settings.reminder_advance_minutes day nowSec notifyOk) s
  else s

/-- One evaluation pass's inputs: the settings and medications loaded at the
start of the pass, the current time of day, and the notification oracle for
this pass. -/
structure PassCfg where
  settings : Settings
  nowSec : Nat
  notifyOk : String → Bool
  meds : List Medication

/-- A sequence of sequential `check_and_notify_reminders` passes on one
calendar day, threading the persisted reminder log (and the traces) from
pass to pass. -/
def runPasses (day : String) (cfgs : List PassCfg) (s : EvalState) : EvalState :=
  cfgs.foldl
    (fun s c => check_and_notify_reminders c.settings day c.nowSec c.notifyOk c.meds s) s

/-- Three-component agreement between two evaluation states: equal logs,
emission traces and histories (the `st.error` trace may differ). -/
def coreEq (s₁ s₂ : EvalState) : Prop :=
  s₁.log = s₂.log ∧ s₁.emitted = s₂.emitted ∧ s₁.history = s₂.history

/-- The spec's due condition, in its own words: the absolute difference in
minutes between now and today's timestamp at the occurrence time is at most
the advance window, and the occurrence key is absent from the log. -/
def due_spec (w : Nat) (nowSec : Nat) (h m : Nat) (key : String) (log : List String) : Prop :=
  |(nowSec : ℚ) - (((h * 60 + m) * 60 : Nat) : ℚ)| / 60 ≤ (w : ℚ) ∧ ¬ key ∈ log

/-- Delay computation of `set_alarm` (utils.py lines 7-13):
`datetime.strptime(time_str, "%H:%M")` yields a datetime on 1900-01-01; one
day is added when it is earlier than `now`; the result is
`(reminder_time - now).total_seconds()`.  Datetimes are modelled as rational
seconds since 1900-01-01T00:00:00, so `nowSec` is the current datetime on that
axis; `none` models the `ValueError` of a malformed time string. -/
def set_alarm_delay (nowSec : ℚ) (time_str : String) : Option ℚ :=
  match parseTime time_str.data with
  | none => none
  | some (h, m) =>
    let reminder : ℚ := h * 3600 + m * 60
    let reminder := if reminder < nowSec then reminder + 86400 else reminder
    some (reminder - nowSec)

/-- C3: for every stock ≥ 0 and timesPerDay ≤ 0 (and a non-negative configured
threshold), `get_stock_status` does not raise (the `try` body produces a
value) and returns `days_remaining = 0` with the CRITICAL `"❌"` status. -/
theorem c3_division_by_zero_fallback (settings : Settings) (stock tpd cost : ℚ)
    (_hstock : 0 ≤ stock) (htpd : tpd ≤ 0) (hthr : 0 ≤ settings.low_stock_threshold) :
    (get_stock_status_body settings stock tpd cost).isOk = true ∧
    (get_stock_status settings stock tpd cost).days_remaining = 0 ∧
    (get_stock_status settings stock tpd cost).status = "❌" := by
  have hnot : ¬ 0 < tpd := not_lt.mpr htpd
  simp only [get_stock_status, get_stock_status_body, if_neg hnot]
  rw [if_pos hthr]
  exact ⟨rfl, rfl, rfl⟩

/-- Witness for C3 at stock = 5, timesPerDay = 0, cost = 2 under the default
settings. -/
theorem c3_division_by_zero_fallback_witness :
    (get_stock_status_body DEFAULT_SETTINGS 5 0 2).isOk = true ∧
    (get_stock_status DEFAULT_SETTINGS 5 0 2).days_remaining = 0 ∧
    (get_stock_status DEFAULT_SETTINGS 5 0 2).status = "❌" :=
  c3_division_by_zero_fallback DEFAULT_SETTINGS 5 0 2 (by norm_num) (by norm_num)
    (by norm_num [DEFAULT_SETTINGS])

/-- C8: for stock ≥ 0 and timesPerDay > 0 the forecast computes
`days_remaining = stock / timesPerDay` exactly, `monthly_cost =
cost * timesPerDay * 30`, and assigns the tier by ordered first match on the
spec's rule (≤ threshold → CRITICAL, else ≤ 30 → LOW, else OK). -/
theorem c8_forecast_postcondition (settings : Settings) (stock tpd cost : ℚ)
    (_hstock : 0 ≤ stock) (htpd : 0 < tpd) :
    (get_stock_status settings stock tpd cost).days_remaining = stock / tpd ∧
    (get_stock_status settings stock tpd cost).monthly_cost = cost * tpd * 30 ∧
    (get_stock_status settings stock tpd cost).status =
      (if stock / tpd ≤ settings.low_stock_threshold then "❌"
       else if stock / tpd ≤ 30 then "⚠️" else "✅") := by
  have hne : tpd ≠ 0 := ne_of_gt htpd
  simp only [get_stock_status, get_stock_status_body, checkedDiv, if_pos htpd, if_neg hne]
  by_cases h1 : stock / tpd ≤ settings.low_stock_threshold
  · rw [if_pos h1, if_pos h1]
    exact ⟨rfl, rfl, rfl⟩
  · rw [if_neg h1, if_neg h1]
    by_cases h2 : stock / tpd ≤ 30
    · rw [if_pos h2, if_pos h2]
      exact ⟨rfl, rfl, rfl⟩
    · rw [if_neg h2, if_neg h2]
      exact ⟨rfl, rfl, rfl⟩

/-- Witness for C8: the Paracetamol scenario, stock = 20, timesPerDay = 2,
threshold = 10 → daysRemaining = 10 and tier CRITICAL (boundary `≤`). -/
theorem c8_forecast_postcondition_witness :
    (get_stock_status DEFAULT_SETTINGS 20 2 0).days_remaining = 10 ∧
    (get_stock_status DEFAULT_SETTINGS 20 2 0).status = "❌" := by
  obtain ⟨h1, _, h3⟩ :=
    c8_forecast_postcondition DEFAULT_SETTINGS 20 2 0 (by norm_num) (by norm_num)
  refine ⟨by rw [h1]; norm_num, by rw [h3]; norm_num [DEFAULT_SETTINGS]⟩

/-- C9 counterexample: the source forecast has no per-medication threshold; a
medication with stock 20, one dose per day, global threshold 10 and a
(spec-worded) override of 50 gets status `"⚠️"` from the code, while the
spec's override semantics demands `"❌"` — the forecast does not use any
per-medication value. -/
theorem c9_counterexample :
    (get_stock_status ⟨true, 10, 5⟩ 20 1 0).status = "⚠️" ∧
    (get_stock_status ⟨true, lowStockThresholdOverrideSpec 10 (some 50), 5⟩ 20 1 0).status = "❌" ∧
    (get_stock_status ⟨true, 10, 5⟩ 20 1 0).status ≠
      (get_stock_status ⟨true, lowStockThresholdOverrideSpec 10 (some 50), 5⟩ 20 1 0).status := by
  refine ⟨?_, ?_, ?_⟩
  · norm_num [get_stock_status, get_stock_status_body, checkedDiv, lowStockThresholdOverrideSpec]
  · norm_num [get_stock_status, get_stock_status_body, checkedDiv, lowStockThresholdOverrideSpec]
  · norm_num [get_stock_status, get_stock_status_body, checkedDiv, lowStockThresholdOverrideSpec]
    decide

/-- C9 amended: the threshold used by `get_stock_status` is always the global
settings value (default 10); the forecast depends on the settings only
through `low_stock_threshold`, and the source data model offers no
per-medication override. -/
theorem c9_amended_global_threshold_only :
    DEFAULT_SETTINGS.low_stock_threshold = 10 ∧
    ∀ (s₁ s₂ : Settings), s₁.low_stock_threshold = s₂.low_stock_threshold →
      ∀ stock tpd cost, get_stock_status s₁ stock tpd cost = get_stock_status s₂ stock tpd cost := by
  refine ⟨rfl, ?_⟩
  rintro ⟨n₁, t₁, r₁⟩ ⟨n₂, t₂, r₂⟩ h stock tpd cost
  simp only at h
  subst h
  rfl

/-- Witness for the amended C9: two settings records differing in everything
but the threshold produce identical forecasts. -/
theorem c9_amended_global_threshold_only_witness :
    get_stock_status ⟨true, 10, 5⟩ 20 2 1 = get_stock_status ⟨false, 10, 99⟩ 20 2 1 :=
  c9_amended_global_threshold_only.2 ⟨true, 10, 5⟩ ⟨false, 10, 99⟩ rfl 20 2 1

/-- A property preserved by each step of a fold is preserved by the fold. -/
theorem foldl_preserve {α : Type} (P : EvalState → Prop) (f : EvalState → α → EvalState)
    (hf : ∀ s a, P s → P (f s a)) :
    ∀ (l : List α) (s : EvalState), P s → P (l.foldl f s) := by
  intro l
  induction l with
  | nil => exact fun s hs => hs
  | cons a l ih => exact fun s hs => ih _ (hf s a hs)

/-- A binary relation preserved by each step of a fold is preserved by
folding both sides over the same list. -/
theorem foldl_rel {α : Type} (R : EvalState → EvalState → Prop) (f : EvalState → α → EvalState)
    (hf : ∀ s₁ s₂ a, R s₁ s₂ → R (f s₁ a) (f s₂ a)) :
    ∀ (l : List α) (s₁ s₂ : EvalState), R s₁ s₂ → R (l.foldl f s₁) (l.foldl f s₂) := by
  intro l
  induction l with
  | nil => exact fun s₁ s₂ hs => hs
  | cons a l ih => exact fun s₁ s₂ hs => ih _ _ (hf s₁ s₂ a hs)

/-- The whole-seconds comparison made by the code agrees with the spec's
fractional-minutes window condition. -/
theorem natAbsDiff_window_iff (a b w : Nat) :
    (natAbsDiff a b ≤ w * 60) ↔ (|(a : ℚ) - (b : ℚ)| / 60 ≤ (w : ℚ)) := by
  have habs : |(a : ℚ) - (b : ℚ)| = ((natAbsDiff a b : Nat) : ℚ) := by
    unfold natAbsDiff
    rcases le_or_lt a b with hab | hab
    · rw [if_pos hab, abs_sub_comm,
        abs_of_nonneg (sub_nonneg.mpr (by exact_mod_cast hab))]
      push_cast [hab]
      ring
    · rw [if_neg (not_le.mpr hab),
        abs_of_nonneg (sub_nonneg.mpr (by exact_mod_cast hab.le))]
      push_cast [hab.le]
      ring
  rw [habs, div_le_iff₀ (by norm_num : (0 : ℚ) < 60)]
  constructor
  · intro hle
    calc ((natAbsDiff a b : Nat) : ℚ) ≤ ((w * 60 : Nat) : ℚ) := by exact_mod_cast hle
    _ = (w : ℚ) * 60 := by push_cast; ring
  · intro hle
    have : ((natAbsDiff a b : Nat) : ℚ) ≤ ((w * 60 : Nat) : ℚ) := by
      calc ((natAbsDiff a b : Nat) : ℚ) ≤ (w : ℚ) * 60 := hle
      _ = ((w * 60 : Nat) : ℚ) := by push_cast; ring
    exact_mod_cast this

/-- A successfully parsed reminder time has hour ≤ 23 and minute ≤ 59. -/
theorem parseTime_bounds {cs : List Char} {h m : Nat}
    (hp : parseTime cs = some (h, m)) : h ≤ 23 ∧ m ≤ 59 := by
  unfold parseTime at hp
  split at hp
  · split at hp
    · dsimp only at hp
      split at hp
      · rename_i hcond
        injection hp with hpair
        injection hpair with e1 e2
        subst e1
        subst e2
        exact hcond
      · exact absurd hp (by simp)
    · exact absurd hp (by simp)
  · exact absurd hp (by simp)

/-- The per-occurrence step preserves the at-most-once invariant for a fixed
key: the key was emitted at most once so far, and if it was emitted it is in
the log. -/
theorem processTime_phi (k : String) (w : Nat) (day : String) (nowSec : Nat)
    (notifyOk : String → Bool) (med : Medication) (t : List Char) (s : EvalState)
    (hφ : s.emitted.count k ≤ 1 ∧ (s.emitted.count k = 1 → k ∈ s.log)) :
    (processTime w day nowSec notifyOk med t s).emitted.count k ≤ 1 ∧
      ((processTime w day nowSec notifyOk med t s).emitted.count k = 1 →
        k ∈ (processTime w day nowSec notifyOk med t s).log) := by
  unfold processTime
  cases hp : parseTime t with
  | none => exact hφ
  | some hm =>
    obtain ⟨h, m⟩ := hm
    dsimp only
    by_cases hc : natAbsDiff nowSec ((h * 60 + m) * 60) ≤ w * 60 ∧
        ¬ mkKey med.name day t ∈ s.log
    · rw [if_pos hc]
      by_cases hok : notifyOk (mkKey med.name day t) = true
      · rw [if_pos hok]
        by_cases hk : mkKey med.name day t = k
        · subst hk
          have hcount : s.emitted.count (mkKey med.name day t) = 0 := by
            rcases Nat.lt_or_ge (s.emitted.count (mkKey med.name day t)) 1 with h1 | h1
            · omega
            · exact absurd (hφ.2 (le_antisymm hφ.1 h1)) hc.2
          constructor
          · simp [List.count_append, List.count_cons, hcount]
          · intro _
            simp
        · have hbeq : (mkKey med.name day t == k) = false := by
            simp [hk]
          constructor
          · simpa [List.count_append, List.count_cons, hbeq] using hφ.1
          · intro hone
            have : s.emitted.count k = 1 := by
              simpa [List.count_append, List.count_cons, hbeq] using hone
            exact List.mem_append_left _ (hφ.2 this)
      · rw [if_neg hok]
        exact hφ
    · rw [if_neg hc]
      exact hφ

/-- The per-occurrence step preserves "the key is already in the log and has
never been emitted": a logged key is never notified again. -/
theorem processTime_theta (k : String) (w : Nat) (day : String) (nowSec : Nat)
    (notifyOk : String → Bool) (med : Medication) (t : List Char) (s : EvalState)
    (hθ : k ∈ s.log ∧ s.emitted.count k = 0) :
    k ∈ (processTime w day nowSec notifyOk med t s).log ∧
      (processTime w day nowSec notifyOk med t s).emitted.count k = 0 := by
  unfold processTime
  cases hp : parseTime t with
  | none => exact hθ
  | some hm =>
    obtain ⟨h, m⟩ := hm
    dsimp only
    by_cases hc : natAbsDiff nowSec ((h * 60 + m) * 60) ≤ w * 60 ∧
        ¬ mkKey med.name day t ∈ s.log
    · rw [if_pos hc]
      by_cases hok : notifyOk (mkKey med.name day t) = true
      · rw [if_pos hok]
        by_cases hk : mkKey med.name day t = k
        · exact absurd hθ.1 (hk ▸ hc.2)
        · have hbeq : (mkKey med.name day t == k) = false := by
            simp [hk]
          exact ⟨List.mem_append_left _ hθ.1, by simp [List.count_append, List.count_cons, hbeq, hθ.2]⟩
      · rw [if_neg hok]
        exact hθ
    · rw [if_neg hc]
      exact hθ

/-- A state property preserved by every per-occurrence step is preserved by
any sequence of evaluation passes. -/
theorem runPasses_preserve (P : EvalState → Prop)
    (hstep : ∀ w day nowSec notifyOk med t s,
      P s → P (processTime w day nowSec notifyOk med t s)) :
    ∀ (day : String) (cfgs : List PassCfg) (s : EvalState), P s → P (runPasses day cfgs s) := by
  intro day cfgs s hs
  refine foldl_preserve P _ ?_ cfgs s hs
  intro s' c hcc
  unfold check_and_notify_reminders
  cases henb : c.settings.notification_enabled
  · simpa using hcc
  · simp only [if_pos rfl]
    refine foldl_preserve P _ ?_ c.meds s' hcc
    intro s'' med hmed
    unfold processMed processTimes
    exact foldl_preserve P _ (fun sx tx hx => hstep _ _ _ _ _ _ _ hx) (medTimes med) s'' hmed

/-- C1: for any sequence of sequential evaluation passes on one calendar day,
threading the persisted reminder log, a notification for a fixed occurrence
key is emitted at most once; and a key already present in the loaded log is
never notified at all (in particular not after a restart that reloads the
persisted log). -/
theorem c1_at_most_once (day : String) (cfgs : List PassCfg) (log₀ : List String)
    (hist₀ : List HistoryEntry) (k : String) :
    (runPasses day cfgs ⟨log₀, [], hist₀, []⟩).emitted.count k ≤ 1 ∧
    (k ∈ log₀ → (runPasses day cfgs ⟨log₀, [], hist₀, []⟩).emitted.count k = 0) := by
  constructor
  · have := runPasses_preserve
      (fun s => s.emitted.count k ≤ 1 ∧ (s.emitted.count k = 1 → k ∈ s.log))
      (fun w d n ok med t s hφ => processTime_phi k w d n ok med t s hφ)
      day cfgs ⟨log₀, [], hist₀, []⟩ (by simp)
    exact this.1
  · intro hk
    have := runPasses_preserve
      (fun s => k ∈ s.log ∧ s.emitted.count k = 0)
      (fun w d n ok med t s hθ => processTime_theta k w d n ok med t s hθ)
      day cfgs ⟨log₀, [], hist₀, []⟩ ⟨hk, by simp⟩
    exact this.2

/-- Witness for C1: one pass over a medication whose 08:00 occurrence key is
already in the persisted log emits nothing. -/
theorem c1_at_most_once_witness :
    (runPasses "2024-01-01"
        [⟨⟨true, 10, 5⟩, 28800, fun _ => true, [⟨"A", "d", some "08:00", "", ""⟩]⟩]
        ⟨["A_2024-01-01_08:00"], [], [], []⟩).emitted.count "A_2024-01-01_08:00" ≤ 1 ∧
    (runPasses "2024-01-01"
        [⟨⟨true, 10, 5⟩, 28800, fun _ => true, [⟨"A", "d", some "08:00", "", ""⟩]⟩]
        ⟨["A_2024-01-01_08:00"], [], [], []⟩).emitted.count "A_2024-01-01_08:00" = 0 := by
  have hc := c1_at_most_once "2024-01-01"
    [⟨⟨true, 10, 5⟩, 28800, fun _ => true, [⟨"A", "d", some "08:00", "", ""⟩]⟩]
    ["A_2024-01-01_08:00"] [] "A_2024-01-01_08:00"
  exact ⟨hc.1, hc.2 (by simp)⟩

/-- A malformed time string only appends an `st.error` report; the log, the
emission trace and the history are untouched and the loop moves on. -/
theorem processTime_parse_none (w : Nat) (day : String) (nowSec : Nat)
    (notifyOk : String → Bool) (med : Medication) (t : List Char) (s : EvalState)
    (hbad : parseTime t = none) :
    processTime w day nowSec notifyOk med t s = { s with errors := s.errors ++ [med.name] } := by
  unfold processTime
  rw [hbad]

/-- The per-occurrence step reads the medication only through its name. -/
theorem processTime_name_eq (w : Nat) (day : String) (nowSec : Nat)
    (notifyOk : String → Bool) (med med' : Medication) (t : List Char) (s : EvalState)
    (hn : med.name = med'.name) :
    processTime w day nowSec notifyOk med t s = processTime w day nowSec notifyOk med' t s := by
  unfold processTime mkKey
  rw [hn]

/-- `processTimes` reads the medication only through its name. -/
theorem processTimes_name_eq (w : Nat) (day : String) (nowSec : Nat)
    (notifyOk : String → Bool) (med med' : Medication) (hn : med.name = med'.name) :
    ∀ (ts : List (List Char)) (s : EvalState),
      processTimes w day nowSec notifyOk med ts s = processTimes w day nowSec notifyOk med' ts s := by
  intro ts
  induction ts with
  | nil => exact fun s => rfl
  | cons t ts ih =>
    intro s
    unfold processTimes at ih ⊢
    simp only [List.foldl_cons]
    rw [processTime_name_eq w day nowSec notifyOk med med' t s hn]
    exact ih _

/-- `processTimes` distributes over list append. -/
theorem processTimes_append (w : Nat) (day : String) (nowSec : Nat)
    (notifyOk : String → Bool) (med : Medication) (ts₁ ts₂ : List (List Char)) (s : EvalState) :
    processTimes w day nowSec notifyOk med (ts₁ ++ ts₂) s =
      processTimes w day nowSec notifyOk med ts₂ (processTimes w day nowSec notifyOk med ts₁ s) := by
  unfold processTimes
  exact List.foldl_append ..

/-- The per-occurrence step is a bisimulation for `coreEq`: states agreeing
on log, emissions and history keep agreeing, whatever their error traces. -/
theorem processTime_coreEq (w : Nat) (day : String) (nowSec : Nat)
    (notifyOk : String → Bool) (med : Medication) (t : List Char) :
    ∀ (s₁ s₂ : EvalState), coreEq s₁ s₂ →
      coreEq (processTime w day nowSec notifyOk med t s₁)
        (processTime w day nowSec notifyOk med t s₂) := by
  rintro ⟨l₁, e₁, h₁, r₁⟩ ⟨l₂, e₂, h₂, r₂⟩ ⟨hl, he, hh⟩
  simp only at hl he hh
  subst hl
  subst he
  subst hh
  unfold processTime
  cases hp : parseTime t with
  | none => exact ⟨rfl, rfl, rfl⟩
  | some hm =>
    obtain ⟨h, m⟩ := hm
    dsimp only
    by_cases hc : natAbsDiff nowSec ((h * 60 + m) * 60) ≤ w * 60 ∧
        ¬ mkKey med.name day t ∈ l₁
    · rw [if_pos hc, if_pos hc]
      by_cases hok : notifyOk (mkKey med.name day t) = true
      · rw [if_pos hok, if_pos hok]
        exact ⟨rfl, rfl, rfl⟩
      · rw [if_neg hok, if_neg hok]
        exact ⟨rfl, rfl, rfl⟩
    · rw [if_neg hc, if_neg hc]
      exact ⟨rfl, rfl, rfl⟩

/-- One whole-medication iteration is a bisimulation for `coreEq`. -/
theorem processMed_coreEq (w : Nat) (day : String) (nowSec : Nat)
    (notifyOk : String → Bool) (s₁ s₂ : EvalState) (med : Medication)
    (hcore : coreEq s₁ s₂) :
    coreEq (processMed w day nowSec notifyOk s₁ med) (processMed w day nowSec notifyOk s₂ med) := by
  unfold processMed processTimes
  exact foldl_rel coreEq _
    (fun sx sy tx hx => processTime_coreEq w day nowSec notifyOk med tx sx sy hx)
    (medTimes med) s₁ s₂ hcore

/-- C2: an occurrence whose time string parses is treated as due by the
effective reminder check — i.e. the per-occurrence step acts on the state —
exactly when the spec's window condition holds: the absolute difference in
minutes between now and today's timestamp at the occurrence time is within
the advance window and the key is absent from the log. -/
theorem c2_window_policy (w : Nat) (day : String) (nowSec : Nat)
    (notifyOk : String → Bool) (med : Medication) (t : List Char) (h m : Nat)
    (s : EvalState) (hp : parseTime t = some (h, m)) :
    processTime w day nowSec notifyOk med t s = s ↔
      ¬ due_spec w nowSec h m (mkKey med.name day t) s.log := by
  have hiff :
      (natAbsDiff nowSec ((h * 60 + m) * 60) ≤ w * 60 ∧ ¬ mkKey med.name day t ∈ s.log) ↔
        due_spec w nowSec h m (mkKey med.name day t) s.log := by
    unfold due_spec
    rw [natAbsDiff_window_iff]
  simp only [processTime, hp]
  by_cases hc : natAbsDiff nowSec ((h * 60 + m) * 60) ≤ w * 60 ∧ ¬ mkKey med.name day t ∈ s.log
  · rw [if_pos hc]
    refine iff_of_false ?_ (not_not_intro (hiff.mp hc))
    cases hok : notifyOk (mkKey med.name day t) <;> intro heq
    · have := congrArg EvalState.errors heq
      simp at this
    · have := congrArg EvalState.emitted heq
      simp at this
  · rw [if_neg hc]
    exact iff_of_true rfl fun hd => hc (hiff.mpr hd)

/-- Witness for C2: with a 5-minute window and an occurrence scheduled at
08:00 on an empty log, the step acts at 08:04 but leaves the state untouched
at 08:06 and at 07:54. -/
theorem c2_window_policy_witness :
    (processTime 5 "2024-01-01" 29040 (fun _ => true) ⟨"A", "1", some "08:00", "", ""⟩
        "08:00".data ⟨[], [], [], []⟩ ≠ ⟨[], [], [], []⟩) ∧
    (processTime 5 "2024-01-01" 29160 (fun _ => true) ⟨"A", "1", some "08:00", "", ""⟩
        "08:00".data ⟨[], [], [], []⟩ = ⟨[], [], [], []⟩) ∧
    (processTime 5 "2024-01-01" 28440 (fun _ => true) ⟨"A", "1", some "08:00", "", ""⟩
        "08:00".data ⟨[], [], [], []⟩ = ⟨[], [], [], []⟩) := by
  have hp : parseTime "08:00".data = some (8, 0) := by decide
  refine ⟨?_, ?_, ?_⟩
  · intro heq
    have hd := (c2_window_policy 5 "2024-01-01" 29040 (fun _ => true)
      ⟨"A", "1", some "08:00", "", ""⟩ "08:00".data 8 0 ⟨[], [], [], []⟩ hp).mp heq
    exact hd ⟨by norm_num, by simp⟩
  · refine (c2_window_policy 5 "2024-01-01" 29160 (fun _ => true)
      ⟨"A", "1", some "08:00", "", ""⟩ "08:00".data 8 0 ⟨[], [], [], []⟩ hp).mpr ?_
    intro hd
    have := hd.1
    norm_num at this
  · refine (c2_window_policy 5 "2024-01-01" 28440 (fun _ => true)
      ⟨"A", "1", some "08:00", "", ""⟩ "08:00".data 8 0 ⟨[], [], [], []⟩ hp).mpr ?_
    intro hd
    have := hd.1
    norm_num at this

/-- A due occurrence whose notification call succeeds: the per-occurrence
step emits the key and records it in the log (and, in the effective
definition, changes nothing else). -/
theorem processTime_due_ok (w : Nat) (day : String) (nowSec : Nat)
    (notifyOk : String → Bool) (med : Medication) (t : List Char) (h m : Nat)
    (s : EvalState) (hp : parseTime t = some (h, m))
    (hdiff : natAbsDiff nowSec ((h * 60 + m) * 60) ≤ w * 60)
    (hmem : ¬ mkKey med.name day t ∈ s.log)
    (hok : notifyOk (mkKey med.name day t) = true) :
    processTime w day nowSec notifyOk med t s =
      { s with emitted := s.emitted ++ [mkKey med.name day t],
               log := s.log ++ [mkKey med.name day t] } := by
  unfold processTime
  rw [hp]
  dsimp only
  rw [if_pos ⟨hdiff, hmem⟩, if_pos hok]

/-- A due occurrence whose notification call raises: the per-occurrence step
only appends an `st.error` report; in particular the key stays out of the
log. -/
theorem processTime_due_fail (w : Nat) (day : String) (nowSec : Nat)
    (notifyOk : String → Bool) (med : Medication) (t : List Char) (h m : Nat)
    (s : EvalState) (hp : parseTime t = some (h, m))
    (hdiff : natAbsDiff nowSec ((h * 60 + m) * 60) ≤ w * 60)
    (hmem : ¬ mkKey med.name day t ∈ s.log)
    (hfail : notifyOk (mkKey med.name day t) = false) :
    processTime w day nowSec notifyOk med t s =
      { s with errors := s.errors ++ [med.name] } := by
  unfold processTime
  rw [hp]
  dsimp only
  rw [if_pos ⟨hdiff, hmem⟩, if_neg (by rw [hfail]; exact Bool.false_ne_true)]

/-- A due occurrence in the shadowed first definition whose notification call
succeeds: emit, record, and additionally append the Reminded history
entry. -/
theorem processTimeV1_due_ok (w : Nat) (day : String) (nowSec : Nat) (nowStr : String)
    (notifyOk : String → Bool) (med : Medication) (t : List Char) (h m : Nat)
    (s : EvalState) (hp : parseTime t = some (h, m))
    (hdiff : natAbsDiff nowSec ((h * 60 + m) * 60) ≤ w * 60)
    (hmem : ¬ mkKey med.name day t ∈ s.log)
    (hok : notifyOk (mkKey med.name day t) = true) :
    processTimeV1 w day nowSec nowStr notifyOk med t s =
      { s with emitted := s.emitted ++ [mkKey med.name day t],
               log := s.log ++ [mkKey med.name day t],
               history := s.history ++
                 [⟨nowStr, med.name, "நினைவூட்டல்", "நேரம்: " ++ String.mk t⟩] } := by
  unfold processTimeV1
  rw [hp]
  dsimp only
  rw [if_pos ⟨hdiff, hmem⟩, if_pos hok]

/-- C4 counterexample: one pass of the effective `check_and_notify_reminders`
over a single due occurrence emits the notification and records and persists
the key, but appends no `Reminded` history entry — the history stays empty,
contradicting the claim. -/
theorem c4_counterexample :
    (check_and_notify_reminders ⟨true, 10, 5⟩ "2024-01-01" 28800 (fun _ => true)
        [⟨"A", "1 tab", some "08:00", "", ""⟩] ⟨[], [], [], []⟩).emitted =
      ["A_2024-01-01_08:00"] ∧
    (check_and_notify_reminders ⟨true, 10, 5⟩ "2024-01-01" 28800 (fun _ => true)
        [⟨"A", "1 tab", some "08:00", "", ""⟩] ⟨[], [], [], []⟩).log =
      ["A_2024-01-01_08:00"] ∧
    (check_and_notify_reminders ⟨true, 10, 5⟩ "2024-01-01" 28800 (fun _ => true)
        [⟨"A", "1 tab", some "08:00", "", ""⟩] ⟨[], [], [], []⟩).history = [] := by
  refine ⟨?_, ?_, ?_⟩ <;> decide

/-- C4 amended: for every due occurrence, the effective (second, shadowing)
definition emits the notification and records the key in the log, leaving
the history untouched; the `Reminded` history entry is appended only by the
first, shadowed definition. -/
theorem c4_due_occurrence_effects (w : Nat) (day : String) (nowSec : Nat) (nowStr : String)
    (notifyOk : String → Bool) (med : Medication) (t : List Char) (h m : Nat)
    (s : EvalState) (hp : parseTime t = some (h, m))
    (hdiff : natAbsDiff nowSec ((h * 60 + m) * 60) ≤ w * 60)
    (hmem : ¬ mkKey med.name day t ∈ s.log)
    (hok : notifyOk (mkKey med.name day t) = true) :
    processTime w day nowSec notifyOk med t s =
      { s with emitted := s.emitted ++ [mkKey med.name day t],
               log := s.log ++ [mkKey med.name day t] } ∧
    processTimeV1 w day nowSec nowStr notifyOk med t s =
      { s with emitted := s.emitted ++ [mkKey med.name day t],
               log := s.log ++ [mkKey med.name day t],
               history := s.history ++
                 [⟨nowStr, med.name, "நினைவூட்டல்", "நேரம்: " ++ String.mk t⟩] } :=
  ⟨processTime_due_ok w day nowSec notifyOk med t h m s hp hdiff hmem hok,
   processTimeV1_due_ok w day nowSec nowStr notifyOk med t h m s hp hdiff hmem hok⟩

/-- Witness for the amended C4 at a concrete due occurrence. -/
theorem c4_due_occurrence_effects_witness :
    processTime 5 "2024-01-01" 28800 (fun _ => true) ⟨"A", "1", some "08:00", "", ""⟩
        "08:00".data ⟨[], [], [], []⟩ =
      ⟨["A_2024-01-01_08:00"], ["A_2024-01-01_08:00"], [], []⟩ ∧
    processTimeV1 5 "2024-01-01" 28800 "2024-01-01 08:00:00" (fun _ => true)
        ⟨"A", "1", some "08:00", "", ""⟩ "08:00".data ⟨[], [], [], []⟩ =
      ⟨["A_2024-01-01_08:00"], ["A_2024-01-01_08:00"],
       [⟨"2024-01-01 08:00:00", "A", "நினைவூட்டல்", "நேரம்: 08:00"⟩], []⟩ := by
  have hc := c4_due_occurrence_effects 5 "2024-01-01" 28800 "2024-01-01 08:00:00"
    (fun _ => true) ⟨"A", "1", some "08:00", "", ""⟩ "08:00".data 8 0 ⟨[], [], [], []⟩
    (by decide) (by decide) (by decide) rfl
  exact hc

/-- C5 counterexample: a medication whose end date (2024-01-01) is before
today (2024-06-01) still produces a due occurrence — the effective reminder
check applies no date-range gating. -/
theorem c5_counterexample :
    (check_and_notify_reminders ⟨true, 10, 5⟩ "2024-06-01" 28800 (fun _ => true)
        [⟨"X", "1", some "08:00", "2020-01-01", "2024-01-01"⟩] ⟨[], [], [], []⟩).emitted =
      ["X_2024-06-01_08:00"] ∧
    (check_and_notify_reminders ⟨true, 10, 5⟩ "2024-06-01" 28800 (fun _ => true)
        [⟨"X", "1", some "08:00", "2020-01-01", "2024-01-01"⟩] ⟨[], [], [], []⟩).emitted ≠
      [] := by
  refine ⟨by decide, by decide⟩

/-- C5 amended: `check_and_notify_reminders` never consults the start or end
date of any medication — replacing both dates of every medication by
arbitrary values leaves the whole pass unchanged. -/
theorem c5_no_date_gating (settings : Settings) (day : String) (nowSec : Nat)
    (notifyOk : String → Bool) (meds : List Medication) (s : EvalState)
    (f g : Medication → String) :
    check_and_notify_reminders settings day nowSec notifyOk
      (meds.map fun m => { m with startDate := f m, endDate := g m }) s =
    check_and_notify_reminders settings day nowSec notifyOk meds s := by
  unfold check_and_notify_reminders
  cases henb : settings.notification_enabled
  · rfl
  · rw [if_pos rfl, if_pos rfl]
    induction meds generalizing s with
    | nil => rfl
    | cons a l ih =>
      simp only [List.map_cons, List.foldl_cons]
      have hone : processMed settings.reminder_advance_minutes day nowSec notifyOk s
          { a with startDate := f a, endDate := g a } =
          processMed settings.reminder_advance_minutes day nowSec notifyOk s a := by
        unfold processMed
        have hts : medTimes { a with startDate := f a, endDate := g a } = medTimes a := rfl
        rw [hts]
        exact processTimes_name_eq settings.reminder_advance_minutes day nowSec notifyOk
          { a with startDate := f a, endDate := g a } a rfl (medTimes a) s
      rw [hone]
      exact ih _

/-- C6: when the notification call for a due occurrence raises, the step
leaves everything but the `st.error` trace unchanged (the key stays
un-recorded), the remaining reminder times behave exactly as if the failure
had not happened, and on a later evaluation still inside the advance window
whose notification call succeeds the occurrence fires and is recorded. -/
theorem c6_delivery_failure_retry (w : Nat) (day : String) (nowSec : Nat)
    (notifyOk : String → Bool) (med : Medication) (t : List Char) (h m : Nat)
    (s : EvalState) (hp : parseTime t = some (h, m))
    (hdiff : natAbsDiff nowSec ((h * 60 + m) * 60) ≤ w * 60)
    (hmem : ¬ mkKey med.name day t ∈ s.log)
    (hfail : notifyOk (mkKey med.name day t) = false) :
    processTime w day nowSec notifyOk med t s = { s with errors := s.errors ++ [med.name] } ∧
    (∀ ts : List (List Char),
      coreEq
        (processTimes w day nowSec notifyOk med ts { s with errors := s.errors ++ [med.name] })
        (processTimes w day nowSec notifyOk med ts s)) ∧
    (∀ (nowSec' : Nat) (notifyOk' : String → Bool),
      natAbsDiff nowSec' ((h * 60 + m) * 60) ≤ w * 60 →
      notifyOk' (mkKey med.name day t) = true →
      processTime w day nowSec' notifyOk' med t { s with errors := s.errors ++ [med.name] } =
        { s with emitted := s.emitted ++ [mkKey med.name day t],
                 log := s.log ++ [mkKey med.name day t],
                 errors := s.errors ++ [med.name] }) := by
  refine ⟨processTime_due_fail w day nowSec notifyOk med t h m s hp hdiff hmem hfail, ?_, ?_⟩
  · intro ts
    unfold processTimes
    exact foldl_rel coreEq _
      (fun sx sy tx hx => processTime_coreEq w day nowSec notifyOk med tx sx sy hx)
      ts _ _ ⟨rfl, rfl, rfl⟩
  · intro nowSec' notifyOk' hdiff' hok'
    exact processTime_due_ok w day nowSec' notifyOk' med t h m
      { s with errors := s.errors ++ [med.name] } hp hdiff' hmem hok'

/-- Witness for C6: the 08:00 occurrence fails at 08:00 (log untouched, error
reported) and then fires at 08:04 of a later pass whose notification call
succeeds. -/
theorem c6_delivery_failure_retry_witness :
    processTime 5 "2024-01-01" 28800 (fun _ => false) ⟨"A", "1", some "08:00", "", ""⟩
        "08:00".data ⟨[], [], [], []⟩ = ⟨[], [], [], ["A"]⟩ ∧
    processTime 5 "2024-01-01" 29040 (fun _ => true) ⟨"A", "1", some "08:00", "", ""⟩
        "08:00".data ⟨[], [], [], ["A"]⟩ =
      ⟨["A_2024-01-01_08:00"], ["A_2024-01-01_08:00"], [], ["A"]⟩ := by
  have hc := c6_delivery_failure_retry 5 "2024-01-01" 28800 (fun _ => false)
    ⟨"A", "1", some "08:00", "", ""⟩ "08:00".data 8 0 ⟨[], [], [], []⟩
    (by decide) (by decide) (by decide) rfl
  exact ⟨hc.1, hc.2.2 29040 (fun _ => true) (by decide) rfl⟩

/-- C7 counterexample: in a batch with a malformed time `"25:99"`, the parse
failure is isolated (the same medication's `08:00` and another medication's
`08:03` still fire) and reported through `st.error`, but no error-class
history entry is written — the history stays empty, contradicting the
claim's "logged as an error-class history entry". -/
theorem c7_counterexample :
    (check_and_notify_reminders ⟨true, 10, 5⟩ "2024-01-01" 28800 (fun _ => true)
        [⟨"A", "1", some "25:99, 08:00", "", ""⟩, ⟨"B", "2", some "08:03", "", ""⟩]
        ⟨[], [], [], []⟩).emitted = ["A_2024-01-01_08:00", "B_2024-01-01_08:03"] ∧
    (check_and_notify_reminders ⟨true, 10, 5⟩ "2024-01-01" 28800 (fun _ => true)
        [⟨"A", "1", some "25:99, 08:00", "", ""⟩, ⟨"B", "2", some "08:03", "", ""⟩]
        ⟨[], [], [], []⟩).errors = ["A"] ∧
    (check_and_notify_reminders ⟨true, 10, 5⟩ "2024-01-01" 28800 (fun _ => true)
        [⟨"A", "1", some "25:99, 08:00", "", ""⟩, ⟨"B", "2", some "08:03", "", ""⟩]
        ⟨[], [], [], []⟩).history = [] := by
  refine ⟨?_, ?_, ?_⟩ <;> decide

/-- Dropping a malformed time string from one medication's list changes
nothing but the `st.error` trace of that medication's iteration. -/
theorem processMed_drop_bad_coreEq (w : Nat) (day : String) (nowSec : Nat)
    (notifyOk : String → Bool) (m m' : Medication)
    (ts₁ ts₂ : List (List Char)) (bad : List Char)
    (hn : m.name = m'.name)
    (hm : medTimes m = ts₁ ++ bad :: ts₂)
    (hm' : medTimes m' = ts₁ ++ ts₂)
    (hbad : parseTime bad = none) (s : EvalState) :
    coreEq (processMed w day nowSec notifyOk s m) (processMed w day nowSec notifyOk s m') := by
  unfold processMed
  rw [hm, hm']
  rw [processTimes_append, processTimes_append]
  rw [processTimes_name_eq w day nowSec notifyOk m' m hn.symm ts₂ _]
  rw [processTimes_name_eq w day nowSec notifyOk m' m hn.symm ts₁ _]
  have hcons : processTimes w day nowSec notifyOk m (bad :: ts₂)
      (processTimes w day nowSec notifyOk m ts₁ s) =
      processTimes w day nowSec notifyOk m ts₂
        { processTimes w day nowSec notifyOk m ts₁ s with
          errors := (processTimes w day nowSec notifyOk m ts₁ s).errors ++ [m.name] } := by
    unfold processTimes
    rw [List.foldl_cons]
    rw [processTime_parse_none w day nowSec notifyOk m bad _ hbad]
  rw [hcons]
  unfold processTimes
  exact foldl_rel coreEq _
    (fun sx sy tx hx => processTime_coreEq w day nowSec notifyOk m tx sx sy hx)
    ts₂ _ _ ⟨rfl, rfl, rfl⟩

/-- C7 amended: a malformed time string among one medication's reminder times
does not abort that medication's other times or the other medications of the
pass: the pass produces the same log, emissions and history as the pass in
which the malformed entry is absent (only the `st.error` trace differs, and
no history entry is written for the failure). -/
theorem c7_parse_failure_isolated (settings : Settings) (day : String) (nowSec : Nat)
    (notifyOk : String → Bool) (ms₁ ms₂ : List Medication) (m m' : Medication)
    (s : EvalState) (ts₁ ts₂ : List (List Char)) (bad : List Char)
    (hn : m.name = m'.name)
    (hm : medTimes m = ts₁ ++ bad :: ts₂)
    (hm' : medTimes m' = ts₁ ++ ts₂)
    (hbad : parseTime bad = none) :
    coreEq (check_and_notify_reminders settings day nowSec notifyOk (ms₁ ++ m :: ms₂) s)
      (check_and_notify_reminders settings day nowSec notifyOk (ms₁ ++ m' :: ms₂) s) := by
  unfold check_and_notify_reminders
  cases henb : settings.notification_enabled
  · exact ⟨rfl, rfl, rfl⟩
  · rw [if_pos rfl, if_pos rfl]
    rw [List.foldl_append, List.foldl_append, List.foldl_cons, List.foldl_cons]
    exact foldl_rel coreEq _
      (fun sx sy med hx =>
        processMed_coreEq settings.reminder_advance_minutes day nowSec notifyOk sx sy med hx)
      ms₂ _ _
      (processMed_drop_bad_coreEq settings.reminder_advance_minutes day nowSec notifyOk
        m m' ts₁ ts₂ bad hn hm hm' hbad _)

/-- Witness for the amended C7 at the concrete batch of `c7_counterexample`:
dropping the malformed `"25:99"` leaves log, emissions and history
unchanged. -/
theorem c7_parse_failure_isolated_witness :
    coreEq
      (check_and_notify_reminders ⟨true, 10, 5⟩ "2024-01-01" 28800 (fun _ => true)
        ([] ++ ⟨"A", "1", some "25:99, 08:00", "", ""⟩ :: [⟨"B", "2", some "08:03", "", ""⟩])
        ⟨[], [], [], []⟩)
      (check_and_notify_reminders ⟨true, 10, 5⟩ "2024-01-01" 28800 (fun _ => true)
        ([] ++ ⟨"A", "1", some "08:00", "", ""⟩ :: [⟨"B", "2", some "08:03", "", ""⟩])
        ⟨[], [], [], []⟩) :=
  c7_parse_failure_isolated ⟨true, 10, 5⟩ "2024-01-01" 28800 (fun _ => true)
    [] [⟨"B", "2", some "08:03", "", ""⟩]
    ⟨"A", "1", some "25:99, 08:00", "", ""⟩ ⟨"A", "1", some "08:00", "", ""⟩
    ⟨[], [], [], []⟩ [] ["08:00".data] "25:99".data
    rfl (by decide) (by decide) (by decide)

/-- C10: for every current time strictly after the calendar day 1900-01-02
(≥ 172800 s past 1900-01-01T00:00) and every parseable `"HH:MM"` string, the
time parsed by `set_alarm` is earlier than now, the one-day adjustment keeps
it within 1900-01-02 (≤ 172740 s), and the computed delay is negative, so the
alarm thread can never sleep until the configured time of day. -/
theorem c10_alarm_delay_negative (nowSec : ℚ) (ts : String) (h m : Nat)
    (hp : parseTime ts.data = some (h, m)) (hnow : 172800 ≤ nowSec) :
    ((h : ℚ) * 3600 + (m : ℚ) * 60) < nowSec ∧
    ((h : ℚ) * 3600 + (m : ℚ) * 60) + 86400 ≤ 172740 ∧
    set_alarm_delay nowSec ts = some (((h : ℚ) * 3600 + (m : ℚ) * 60) + 86400 - nowSec) ∧
    ((h : ℚ) * 3600 + (m : ℚ) * 60) + 86400 - nowSec < 0 := by
  obtain ⟨hh, hm⟩ := parseTime_bounds hp
  have h1 : (h : ℚ) ≤ 23 := by exact_mod_cast hh
  have h2 : (m : ℚ) ≤ 59 := by exact_mod_cast hm
  have hrem : ((h : ℚ) * 3600 + (m : ℚ) * 60) ≤ 86340 := by nlinarith
  have hlt : ((h : ℚ) * 3600 + (m : ℚ) * 60) < nowSec := by linarith
  refine ⟨hlt, by linarith, ?_, by linarith⟩
  unfold set_alarm_delay
  rw [hp]
  dsimp only
  rw [if_pos hlt]

/-- Witness for C10: at a present-day timestamp (≥ 1900-01-03) the alarm
delay for `"08:00"` is the negative value −3944584800 s. -/
theorem c10_alarm_delay_negative_witness :
    set_alarm_delay 3944700000 "08:00" = some (-3944584800) ∧
    (-3944584800 : ℚ) < 0 := by
  have hc := c10_alarm_delay_negative 3944700000 "08:00" 8 0 (by decide) (by norm_num)
  refine ⟨?_, by norm_num⟩
  rw [hc.2.2.1]
  norm_num
